import Mathlib

/-!
Verification of the geometry engine of `genCarrier.py` (Beseler 23C film
carrier generator).

The script builds SVG path data for laser-cut film-carrier layers.  We embed
the geometry shallowly: the floating-point arithmetic of the source is
modelled over the reals (so every stated equality is exact rather than
within a float tolerance), an SVG path is a list of drawing commands
(`M` absolute move, `L` absolute line, `l` relative line), and a document
layer is the ordered list of `<path>` elements the corresponding `gen*`
function concatenates between header and footer.  Every definition mirrors
the python function of the same name.
-/

namespace GenCarrier

noncomputable section

/-- A point in inches, `(x, y)` in SVG screen coordinates. -/
abbrev Point : Type := ℝ × ℝ

/-! ### Module-level constants of `genCarrier.py` (lines 46-72) -/

/-- bounding box on entire design. -/
def img_width : ℝ := 8.6

/-- bounding box on entire design. -/
def img_height : ℝ := 6.5

/-- Major diameter of paddle. -/
def large_diam : ℝ := 6.375

/-- Major radius of paddle, `large_diam/2.0`. -/
def large_rad : ℝ := large_diam / 2

/-- Handle width. -/
def handle_width : ℝ := 1.135

/-- Handle length, `8.450 - large_diam`. -/
def handle_length : ℝ := 8.450 - large_diam

/-- Diameter of the bottom ring. -/
def ring_diam : ℝ := 4.725

/-- Large diam to handle fillet radius. -/
def handle_fillet : ℝ := 0.750

/-- handle end radius. -/
def handle_rad : ℝ := 0.150

/-- Center of the large diameter and of the image cutout: `img_height/2.0`. -/
def x_center : ℝ := img_height / 2

/-- `y_center = x_center` in the source. -/
def y_center : ℝ := x_center

/-! ### Path commands -/

/-- One SVG path drawing command, as emitted by the string-building code:
`move p` is an absolute `M`, `line p` an absolute `L`, `rline d` a relative
`l` displacement (used only by the film cutout). -/
inductive PathCmd : Type
  | move (p : Point)
  | line (p : Point)
  | rline (d : Point)

/-- The coordinate pair carried by a command (for `rline` the displacement). -/
def cmdPoint : PathCmd → Point
  | .move p => p
  | .line p => p
  | .rline d => d

/-- Whether a command is a pen-up move (`M`). -/
def PathCmd.isMove : PathCmd → Bool
  | .move _ => true
  | _ => false

/-- First coordinate pair of a command list, `(0,0)` for the empty list. -/
def firstPt : List PathCmd → Point
  | [] => (0, 0)
  | c :: _ => cmdPoint c

/-- Last coordinate pair of a command list, `(0,0)` for the empty list. -/
def lastPt (l : List PathCmd) : Point :=
  firstPt l.reverse

/-! ### `drawArc` (genCarrier.py lines 92-115) -/

/-- `one_degree = (2.0*math.pi)/360.0`. -/
def one_degree : ℝ := 2 * Real.pi / 360

/-- `num_segments = 1+int(abs(theta1-theta0)/dtheta)` with
`dtheta = one_degree*0.5`; the truncation `int` agrees with the floor since
its argument is nonnegative. -/
def arcNumSegments (theta0 theta1 : ℝ) : ℕ :=
  1 + (Int.toNat ⌊|theta1 - theta0| / (one_degree * 0.5)⌋)

/-- The recomputed per-segment step `dtheta = (theta1-theta0)/num_segments`. -/
def arcDtheta (theta0 theta1 : ℝ) : ℝ :=
  (theta1 - theta0) / (arcNumSegments theta0 theta1 : ℝ)

/-- The sampled point `[center[0]+cos(theta)*rad, center[1]+sin(theta)*rad]`. -/
def arcPoint (center : Point) (rad theta : ℝ) : Point :=
  (center.1 + Real.cos theta * rad, center.2 + Real.sin theta * rad)

/-- `drawArc(center, rad, theta0, theta1, moveTo)`: if `moveTo` it first
emits `M` at the `theta0` sample, then one `L` per loop iteration `i` at the
sample `theta_i1 = theta0 + (i+1)*dtheta`. -/
def drawArc (center : Point) (rad theta0 theta1 : ℝ) (moveTo : Bool) :
    List PathCmd :=
  (if moveTo then [PathCmd.move (arcPoint center rad theta0)] else [])
  ++ (List.range (arcNumSegments theta0 theta1)).map
      (fun (i : ℕ) => PathCmd.line
        (arcPoint center rad (theta0 + ((i : ℝ) + 1) * arcDtheta theta0 theta1)))

/-! ### Basic facts about `drawArc` -/

theorem arcNumSegments_pos (theta0 theta1 : ℝ) :
    1 ≤ arcNumSegments theta0 theta1 := by
  unfold arcNumSegments
  omega

theorem drawArc_length (center : Point) (rad theta0 theta1 : ℝ)
    (moveTo : Bool) :
    (drawArc center rad theta0 theta1 moveTo).length
      = (if moveTo then 1 else 0) + arcNumSegments theta0 theta1 := by
  unfold drawArc
  rw [List.length_append, List.length_map, List.length_range]
  cases moveTo
  · simp
  · simp

theorem drawArc_ne_nil (center : Point) (rad theta0 theta1 : ℝ)
    (moveTo : Bool) :
    drawArc center rad theta0 theta1 moveTo ≠ [] := by
  intro h
  have hlen := congrArg List.length h
  rw [drawArc_length] at hlen
  have hpos := arcNumSegments_pos theta0 theta1
  cases moveTo <;> simp at hlen <;> omega

theorem drawArc_firstPt (center : Point) (rad theta0 theta1 : ℝ) :
    firstPt (drawArc center rad theta0 theta1 true)
      = arcPoint center rad theta0 := by
  simp [drawArc, firstPt, cmdPoint]

/-- The arc's final sample is exactly at `theta1`:
`theta0 + num_segments * ((theta1-theta0)/num_segments) = theta1`. -/
theorem arc_final_angle (theta0 theta1 : ℝ) :
    theta0 + (arcNumSegments theta0 theta1 : ℝ) * arcDtheta theta0 theta1
      = theta1 := by
  have hpos : 0 < (arcNumSegments theta0 theta1 : ℝ) := by
    have := arcNumSegments_pos theta0 theta1
    exact_mod_cast Nat.lt_of_lt_of_le Nat.zero_lt_one this
  unfold arcDtheta
  field_simp

theorem drawArc_lastPt (center : Point) (rad theta0 theta1 : ℝ)
    (moveTo : Bool) :
    lastPt (drawArc center rad theta0 theta1 moveTo)
      = arcPoint center rad theta1 := by
  obtain ⟨m, hm⟩ : ∃ m, arcNumSegments theta0 theta1 = m + 1 :=
    ⟨arcNumSegments theta0 theta1 - 1,
      (Nat.succ_pred_eq_of_pos (arcNumSegments_pos theta0 theta1)).symm⟩
  have hfinal : theta0 + ((m : ℝ) + 1) * arcDtheta theta0 theta1 = theta1 := by
    have := arc_final_angle theta0 theta1
    rw [hm] at this
    push_cast at this
    convert this using 3
  unfold drawArc lastPt
  rw [hm, List.range_succ]
  cases moveTo <;>
    simp [firstPt, cmdPoint, hfinal]

theorem drawArc_firstPt_false (center : Point) (rad theta0 theta1 : ℝ) :
    firstPt (drawArc center rad theta0 theta1 false)
      = arcPoint center rad (theta0 + arcDtheta theta0 theta1) := by
  obtain ⟨m, hm⟩ : ∃ m, arcNumSegments theta0 theta1 = m + 1 :=
    ⟨arcNumSegments theta0 theta1 - 1,
      (Nat.succ_pred_eq_of_pos (arcNumSegments_pos theta0 theta1)).symm⟩
  unfold drawArc
  rw [hm, List.range_succ_eq_map]
  simp [firstPt, cmdPoint]

theorem firstPt_append (a b : List PathCmd) (ha : a ≠ []) :
    firstPt (a ++ b) = firstPt a := by
  cases a with
  | nil => exact absurd rfl ha
  | cons c l => simp [firstPt]

theorem lastPt_append (a b : List PathCmd) (hb : b ≠ []) :
    lastPt (a ++ b) = lastPt b := by
  unfold lastPt
  rw [List.reverse_append]
  exact firstPt_append _ _ (by simpa using hb)

/-- `num_segments` always satisfies `num_segments > |theta1-theta0|/(pi/360)`,
hence the recomputed step is at most half a degree in magnitude. -/
theorem arcDtheta_abs_le (theta0 theta1 : ℝ) :
    |arcDtheta theta0 theta1| ≤ Real.pi / 360 := by
  have hs : (0:ℝ) < Real.pi / 360 := by positivity
  have hx0 : (0:ℝ) ≤ |theta1 - theta0| := abs_nonneg _
  have hnn : (0:ℤ) ≤ ⌊|theta1 - theta0| / (Real.pi / 360)⌋ :=
    Int.floor_nonneg.mpr (div_nonneg hx0 hs.le)
  have hstep : one_degree * 0.5 = Real.pi / 360 := by
    unfold one_degree; ring
  have hcast : ((Int.toNat ⌊|theta1 - theta0| / (Real.pi / 360)⌋ : ℕ) : ℝ)
      = ((⌊|theta1 - theta0| / (Real.pi / 360)⌋ : ℤ) : ℝ) := by
    exact_mod_cast Int.toNat_of_nonneg hnn
  have hn : (arcNumSegments theta0 theta1 : ℝ)
      = 1 + ((⌊|theta1 - theta0| / (Real.pi / 360)⌋ : ℤ) : ℝ) := by
    unfold arcNumSegments
    rw [hstep, Nat.cast_add, Nat.cast_one, hcast]
  have hnpos : (0:ℝ) < (arcNumSegments theta0 theta1 : ℝ) := by
    have h1 := arcNumSegments_pos theta0 theta1
    exact_mod_cast Nat.lt_of_lt_of_le Nat.zero_lt_one h1
  have hlt : |theta1 - theta0| / (Real.pi / 360)
      < (arcNumSegments theta0 theta1 : ℝ) := by
    rw [hn]
    have h2 := Int.lt_floor_add_one (|theta1 - theta0| / (Real.pi / 360))
    linarith
  have hxlt : |theta1 - theta0|
      < (arcNumSegments theta0 theta1 : ℝ) * (Real.pi / 360) :=
    (div_lt_iff₀ hs).mp hlt
  have habs : |arcDtheta theta0 theta1|
      = |theta1 - theta0| / (arcNumSegments theta0 theta1 : ℝ) := by
    unfold arcDtheta
    rw [abs_div, abs_of_pos hnpos]
  rw [habs, div_le_iff₀ hnpos]
  nlinarith

/-- A full-revolution arc starting with a pen-up move begins and ends at the
same point: `cos 0 = cos (2*pi)` and `sin 0 = sin (2*pi)`. -/
theorem fullCircle_closed (center : Point) (rad : ℝ) :
    firstPt (drawArc center rad 0 (2 * Real.pi) true)
      = lastPt (drawArc center rad 0 (2 * Real.pi) true) := by
  rw [drawArc_firstPt, drawArc_lastPt]
  unfold arcPoint
  rw [Real.cos_two_pi, Real.sin_two_pi, Real.cos_zero, Real.sin_zero]

/-- Filtering the pen-up moves out of a `drawArc` fragment leaves exactly the
initial move when `moveTo` is set, and nothing otherwise: every looped
command is an `L`. -/
theorem drawArc_filter_isMove (center : Point) (rad theta0 theta1 : ℝ)
    (moveTo : Bool) :
    (drawArc center rad theta0 theta1 moveTo).filter PathCmd.isMove
      = if moveTo then [PathCmd.move (arcPoint center rad theta0)] else [] := by
  have hmap : ∀ (l : List ℕ) (f : ℕ → Point),
      (l.map (fun i => PathCmd.line (f i))).filter PathCmd.isMove = [] := by
    intro l f
    induction l with
    | nil => rfl
    | cons x xs ih => simpa [PathCmd.isMove] using ih
  unfold drawArc
  rw [List.filter_append, hmap]
  cases moveTo
  · simp
  · simp [PathCmd.isMove]

/-! ### `makePaddleOutline` (genCarrier.py lines 136-170)

The local variables of the python function are lifted to definitions.  The
first assignment `handle_angle = math.tan(handle_width/large_diam)` is dead
code: it is overwritten by `handle_angle = handle_theta0` before use, so
only the `asin`-based value enters the geometry. -/

/-- `handle_theta0 = asin((handle_width/2+handle_fillet)/(large_rad+handle_fillet))`. -/
def handle_theta0 : ℝ :=
  Real.arcsin ((handle_width / 2 + handle_fillet) / (large_rad + handle_fillet))

/-- `handle_theta1 = pi/2 - handle_theta0`. -/
def handle_theta1 : ℝ := Real.pi / 2 - handle_theta0

/-- `fillet_dist = handle_fillet + large_rad`. -/
def fillet_dist : ℝ := handle_fillet + large_rad

/-- Fillet center on the upper (smaller `y`) side of the handle. -/
def fillet_centerA : Point :=
  (fillet_dist * Real.cos handle_theta0 + x_center,
   y_center - fillet_dist * Real.sin handle_theta0)

/-- Fillet center on the lower (larger `y`) side of the handle. -/
def fillet_centerB : Point :=
  (fillet_dist * Real.cos handle_theta0 + x_center,
   fillet_dist * Real.sin handle_theta0 + y_center)

/-- `handle_end = handle_length+x_center+large_diam/2.0`. -/
def handle_end : ℝ := handle_length + x_center + large_diam / 2

/-- Fragment (a): large-circle arc from `handle_theta0` around to
`2*pi - handle_theta0`, with a pen-up move to its start. -/
def paddleOutlineFrag1 : List PathCmd :=
  drawArc (x_center, y_center) (large_diam / 2) handle_theta0
    (2 * Real.pi - handle_theta0) true

/-- Fragment (b): first handle fillet, continuing the path.  The start angle
is the literal `1.5+handle_theta1` from the source. -/
def paddleOutlineFrag2 : List PathCmd :=
  drawArc fillet_centerA handle_fillet (1.5 + handle_theta1)
    (0.5 * Real.pi) false

/-- Fragment (c): first handle corner round. -/
def paddleOutlineFrag3 : List PathCmd :=
  drawArc (handle_end - handle_rad, y_center - 0.5 * handle_width + handle_rad)
    handle_rad (-0.5 * Real.pi) 0 false

/-- Fragment (d): second handle corner round. -/
def paddleOutlineFrag4 : List PathCmd :=
  drawArc (handle_end - handle_rad, y_center + 0.5 * handle_width - handle_rad)
    handle_rad 0 (0.5 * Real.pi) false

/-- Fragment (e): mirror handle fillet, from `1.5*pi` to `1.5*pi-handle_theta1`. -/
def paddleOutlineFrag5 : List PathCmd :=
  drawArc fillet_centerB handle_fillet (1.5 * Real.pi)
    (1.5 * Real.pi - handle_theta1) false

/-- `makePaddleOutline`: the five arc fragments concatenated into one path,
which the caller closes with `z`. -/
def makePaddleOutline : List PathCmd :=
  paddleOutlineFrag1 ++ paddleOutlineFrag2 ++ paddleOutlineFrag3
    ++ paddleOutlineFrag4 ++ paddleOutlineFrag5

/-! ### Aligner pins (genCarrier.py lines 212-242) -/

/-- A circle drawn by one full-revolution `drawArc` call. -/
structure Circle : Type where
  center : Point
  radius : ℝ

/-- The four aligner-pin circles of `makeAligners`, in emission order: the
centers are the four `p` values of the source (computed from the unscaled
`aligner_rad = aligner_diam/2`), the drawn radius is `aligner_rad*scale`. -/
def makeAlignersCircles (cut_width cut_height film_width aligner_diam scale :
    ℝ) : List Circle :=
  [⟨(x_center - film_width / 2 - aligner_diam / 2,
     y_center - cut_width / 2 + aligner_diam / 2), aligner_diam / 2 * scale⟩,
   ⟨(x_center + film_width / 2 + aligner_diam / 2,
     y_center - cut_width / 2 + aligner_diam / 2), aligner_diam / 2 * scale⟩,
   ⟨(x_center - film_width / 2 - aligner_diam / 2,
     y_center + cut_width / 2 - aligner_diam / 2), aligner_diam / 2 * scale⟩,
   ⟨(x_center + film_width / 2 + aligner_diam / 2,
     y_center + cut_width / 2 - aligner_diam / 2), aligner_diam / 2 * scale⟩]

/-- `makeAligners`: four full-revolution circles concatenated into one path
(no closing `z`).  Written exactly as the four `drawArc` calls of the
source, with `aligner_rad = aligner_diam/2` inlined. -/
def makeAligners (cut_width cut_height film_width aligner_diam scale : ℝ) :
    List PathCmd :=
  drawArc (x_center - film_width / 2 - aligner_diam / 2,
      y_center - cut_width / 2 + aligner_diam / 2)
    (aligner_diam / 2 * scale) 0 (2 * Real.pi) true
  ++ drawArc (x_center + film_width / 2 + aligner_diam / 2,
      y_center - cut_width / 2 + aligner_diam / 2)
    (aligner_diam / 2 * scale) 0 (2 * Real.pi) true
  ++ drawArc (x_center - film_width / 2 - aligner_diam / 2,
      y_center + cut_width / 2 - aligner_diam / 2)
    (aligner_diam / 2 * scale) 0 (2 * Real.pi) true
  ++ drawArc (x_center + film_width / 2 + aligner_diam / 2,
      y_center + cut_width / 2 - aligner_diam / 2)
    (aligner_diam / 2 * scale) 0 (2 * Real.pi) true

/-- The path emitted by `makeAligners` is exactly the four circles of
`makeAlignersCircles`, each drawn by a full-revolution `drawArc`. -/
theorem makeAligners_eq_circles (cut_width cut_height film_width aligner_diam
    scale : ℝ) :
    makeAligners cut_width cut_height film_width aligner_diam scale
      = ((makeAlignersCircles cut_width cut_height film_width aligner_diam
            scale).map
          (fun c => drawArc c.center c.radius 0 (2 * Real.pi) true)).flatten := by
  simp [makeAligners, makeAlignersCircles, List.append_assoc]

/-! ### Ring, ring aligners, extra pins, film cutout
(genCarrier.py lines 192-206, 251-295) -/

/-- `makeRing`: outer circle of radius `ring_diam/2` and inner circle of
radius `ring_diam/2-0.5`, both centered on the carrier center. -/
def makeRing : List PathCmd :=
  drawArc (x_center, y_center) (ring_diam / 2) 0 (2 * Real.pi) true
  ++ drawArc (x_center, y_center) (ring_diam / 2 - 0.5) 0 (2 * Real.pi) true

/-- `makeRingAligners`: four `0.125`-radius circles offset by
`ring_diam/2 - 0.25` along the cardinal directions. -/
def makeRingAligners : List PathCmd :=
  drawArc (x_center, y_center - (ring_diam / 2 - 0.25)) 0.125 0
    (2 * Real.pi) true
  ++ drawArc (x_center, y_center + (ring_diam / 2 - 0.25)) 0.125 0
    (2 * Real.pi) true
  ++ drawArc (x_center - (ring_diam / 2 - 0.25), y_center) 0.125 0
    (2 * Real.pi) true
  ++ drawArc (x_center + (ring_diam / 2 - 0.25), y_center) 0.125 0
    (2 * Real.pi) true

/-- `makeExtraPins(pin_diam)`: four `pin_diam/2`-radius circles at the four
diagonal offsets `off = (large_rad-0.625)/sqrt(2)`. -/
def makeExtraPins (pin_diam : ℝ) : List PathCmd :=
  drawArc (x_center - (large_rad - 0.625) / Real.sqrt 2,
      y_center - (large_rad - 0.625) / Real.sqrt 2) (pin_diam / 2) 0
    (2 * Real.pi) true
  ++ drawArc (x_center - (large_rad - 0.625) / Real.sqrt 2,
      y_center + (large_rad - 0.625) / Real.sqrt 2) (pin_diam / 2) 0
    (2 * Real.pi) true
  ++ drawArc (x_center + (large_rad - 0.625) / Real.sqrt 2,
      y_center - (large_rad - 0.625) / Real.sqrt 2) (pin_diam / 2) 0
    (2 * Real.pi) true
  ++ drawArc (x_center + (large_rad - 0.625) / Real.sqrt 2,
      y_center + (large_rad - 0.625) / Real.sqrt 2) (pin_diam / 2) 0
    (2 * Real.pi) true

/-- `makeFilmCutout`: `M cut_x,cut_y l cut_height,0 l 0,cut_width
l -cut_height,0 z` — a rectangle in relative commands, closed by `z`. -/
def makeFilmCutoutCmds (cut_width cut_height film_width aligner_diam : ℝ) :
    List PathCmd :=
  [PathCmd.move (x_center - cut_height / 2, y_center - cut_width / 2),
   PathCmd.rline (cut_height, 0),
   PathCmd.rline (0, cut_width),
   PathCmd.rline (-cut_height, 0)]

/-! ### Layers (genCarrier.py lines 303-358)

A document layer is modelled as the ordered list of `<path>` elements the
`gen*` function concatenates between `makeHeader()` and `makeFooter()`; the
textual header, footer, comment lines and file I/O are the out-of-scope
serialization wrapper. -/

/-- One `<path .../>` element: its drawing commands and whether the source
appends `z` to its `d` attribute. -/
structure PathElem : Type where
  cmds : List PathCmd
  closed : Bool

/-- The element emitted by `makePaddleOutline` (path closed with `z`). -/
def makePaddleOutlineElem : PathElem :=
  ⟨makePaddleOutline, true⟩

/-- The element emitted by `makeFilmCutout` (closed with `z`). -/
def makeFilmCutout (cut_width cut_height film_width aligner_diam : ℝ) :
    PathElem :=
  ⟨makeFilmCutoutCmds cut_width cut_height film_width aligner_diam, true⟩

/-- The element emitted by `makeAligners` (no `z`). -/
def makeAlignersElem (cut_width cut_height film_width aligner_diam scale : ℝ) :
    PathElem :=
  ⟨makeAligners cut_width cut_height film_width aligner_diam scale, false⟩

/-- The element emitted by `makeExtraPins` (no `z`). -/
def makeExtraPinsElem (pin_diam : ℝ) : PathElem :=
  ⟨makeExtraPins pin_diam, false⟩

/-- The element emitted by `makeRing` (no `z`). -/
def makeRingElem : PathElem :=
  ⟨makeRing, false⟩

/-- The element emitted by `makeRingAligners` (no `z`). -/
def makeRingAlignersElem : PathElem :=
  ⟨makeRingAligners, false⟩

/-- `genTop`: outline, film cutout, aligners at scale `1.0`, then extra pins
at diameter `0.750` exactly when `extra_pins` is set. -/
def genTop (cut_width cut_height film_width aligner_diam : ℝ)
    (extra_pins : Bool) : List PathElem :=
  [makePaddleOutlineElem,
   makeFilmCutout cut_width cut_height film_width aligner_diam,
   makeAlignersElem cut_width cut_height film_width aligner_diam 1.0]
  ++ (if extra_pins then [makeExtraPinsElem 0.750] else [])

/-- `genRing`: ring then ring aligners; the per-format parameters are
received but never read. -/
def genRing (cut_width cut_height film_width aligner_diam : ℝ)
    (extra_pins : Bool) : List PathElem :=
  [makeRingElem, makeRingAlignersElem]

/-! ## Claim theorems -/

/-- Claim C4 (confirmed): for every center, radius `r > 0` and angle pair
with `theta0 ≠ theta1`, the polyline of `drawArc` starts at
`center + r*(cos theta0, sin theta0)` when `moveTo` is true and ends at
`center + r*(cos theta1, sin theta1)` for either `moveTo`, because the
final sample angle `theta0 + num_segments*dtheta` equals `theta1` exactly.
In the real-arithmetic model the equalities are exact, hence within the
claimed `1e-9` tolerance. -/
theorem claim_C4_arc_endpoints (center : Point) (rad theta0 theta1 : ℝ)
    (hrad : 0 < rad) (hne : theta0 ≠ theta1) :
    firstPt (drawArc center rad theta0 theta1 true)
        = (center.1 + rad * Real.cos theta0, center.2 + rad * Real.sin theta0)
    ∧ ∀ moveTo : Bool,
        lastPt (drawArc center rad theta0 theta1 moveTo)
          = (center.1 + rad * Real.cos theta1,
             center.2 + rad * Real.sin theta1) := by
  constructor
  · rw [drawArc_firstPt]
    unfold arcPoint
    exact Prod.ext (by ring) (by ring)
  · intro moveTo
    rw [drawArc_lastPt]
    unfold arcPoint
    exact Prod.ext (by ring) (by ring)

/-- Witness for claim C4 at center `(0,0)`, radius `1`, angles `0` and `pi`. -/
theorem claim_C4_arc_endpoints_witness :
    (0:ℝ) < 1 ∧ (0:ℝ) ≠ Real.pi
    ∧ (firstPt (drawArc ((0:ℝ), (0:ℝ)) 1 0 Real.pi true)
        = ((0:ℝ) + 1 * Real.cos 0, (0:ℝ) + 1 * Real.sin 0)
      ∧ ∀ moveTo : Bool,
        lastPt (drawArc ((0:ℝ), (0:ℝ)) 1 0 Real.pi moveTo)
          = ((0:ℝ) + 1 * Real.cos Real.pi, (0:ℝ) + 1 * Real.sin Real.pi)) :=
  ⟨one_pos, Ne.symm Real.pi_ne_zero,
    claim_C4_arc_endpoints ((0:ℝ), (0:ℝ)) 1 0 Real.pi one_pos
      (Ne.symm Real.pi_ne_zero)⟩

/-- Claim C5 (confirmed): for every angle pair, including the degenerate
`theta0 = theta1`, the segment count is at least `1` (so the recomputation
of `dtheta` never divides by zero) and the magnitude of the recomputed step
never exceeds half a degree, `pi/360` radians — even without the rounding
epsilon the claim allows. -/
theorem claim_C5_segment_bounds (theta0 theta1 : ℝ) :
    1 ≤ arcNumSegments theta0 theta1
    ∧ |arcDtheta theta0 theta1| ≤ Real.pi / 360 :=
  ⟨arcNumSegments_pos theta0 theta1, arcDtheta_abs_le theta0 theta1⟩

/-- Claim C6 (confirmed): a full-revolution `drawArc(center, r, 0, 2*pi,
true)` produces a polyline whose first point equals its last point, because
the final sample angle is exactly `2*pi` and `cos`/`sin` are `2*pi`-periodic.
This holds for every radius, with exact equality in the real model. -/
theorem claim_C6_full_circle_closed (center : Point) (rad : ℝ) :
    firstPt (drawArc center rad 0 (2 * Real.pi) true)
      = lastPt (drawArc center rad 0 (2 * Real.pi) true) :=
  fullCircle_closed center rad

/-- Claim C7 (confirmed): the top layer is exactly, in order, the paddle
outline, the film cutout, the aligner pins at scale `1.0`, and — exactly
when `extra_pins` is set — the extra pins at diameter `0.750`; hence the top
document holds `3` path elements when `extra_pins` is false and `4` when it
is true. -/
theorem claim_C7_top_layer (cut_width cut_height film_width aligner_diam : ℝ)
    (extra_pins : Bool) :
    genTop cut_width cut_height film_width aligner_diam extra_pins
      = [makePaddleOutlineElem,
         makeFilmCutout cut_width cut_height film_width aligner_diam,
         makeAlignersElem cut_width cut_height film_width aligner_diam 1.0]
        ++ (if extra_pins then [makeExtraPinsElem 0.750] else [])
    ∧ (genTop cut_width cut_height film_width aligner_diam extra_pins).length
        = if extra_pins then 4 else 3 := by
  refine ⟨rfl, ?_⟩
  unfold genTop
  cases extra_pins
  · simp
  · simp

/-- Claim C8 (confirmed): `makeRing` emits exactly two concentric circles
centered on the computed format center `(x_center, y_center)`: an outer one
of diameter `4.725` and an inner one of diameter `4.725 - 1.0`; each is a
closed full-revolution circle (first point equals last point). -/
theorem claim_C8_ring :
    makeRing
      = drawArc (x_center, y_center) (4.725 / 2) 0 (2 * Real.pi) true
        ++ drawArc (x_center, y_center) ((4.725 - 1.0) / 2) 0
            (2 * Real.pi) true
    ∧ firstPt (drawArc (x_center, y_center) (4.725 / 2) 0 (2 * Real.pi) true)
        = lastPt (drawArc (x_center, y_center) (4.725 / 2) 0
            (2 * Real.pi) true)
    ∧ firstPt (drawArc (x_center, y_center) ((4.725 - 1.0) / 2) 0
          (2 * Real.pi) true)
        = lastPt (drawArc (x_center, y_center) ((4.725 - 1.0) / 2) 0
            (2 * Real.pi) true) := by
  refine ⟨?_, fullCircle_closed _ _, fullCircle_closed _ _⟩
  unfold makeRing ring_diam
  norm_num

/-- Claim C9 (confirmed): the `scale` argument of `makeAligners` changes
only the radius of the four emitted circles (pin radius `aligner_diam/2`
times `scale`); the four centers are computed from the unscaled pin radius
and coincide for any two scale values. -/
theorem claim_C9_scale_moves_no_center (cut_width cut_height film_width
    aligner_diam scale1 scale2 : ℝ) :
    makeAligners cut_width cut_height film_width aligner_diam scale1
      = ((makeAlignersCircles cut_width cut_height film_width aligner_diam
            scale1).map
          (fun c => drawArc c.center c.radius 0 (2 * Real.pi) true)).flatten
    ∧ (makeAlignersCircles cut_width cut_height film_width aligner_diam
          scale1).map Circle.center
      = (makeAlignersCircles cut_width cut_height film_width aligner_diam
          scale2).map Circle.center
    ∧ (makeAlignersCircles cut_width cut_height film_width aligner_diam
          scale1).map Circle.radius
      = List.replicate 4 (aligner_diam / 2 * scale1) := by
  refine ⟨makeAligners_eq_circles _ _ _ _ _, ?_, ?_⟩
  · simp [makeAlignersCircles]
  · simp [makeAlignersCircles, List.replicate]

/-- Claim C10 (confirmed): the ring layer's content is independent of every
per-format parameter — `genRing` receives `cut_width`, `cut_height`,
`film_width`, `aligner_diam` and `extra_pins` but reads none of them, so any
two formats yield the same ring document (hence byte-identical serialized
output, the serializer being a deterministic function of this content). -/
theorem claim_C10_ring_noninterference (cw1 ch1 fw1 ad1 : ℝ) (e1 : Bool)
    (cw2 ch2 fw2 ad2 : ℝ) (e2 : Bool) :
    genRing cw1 ch1 fw1 ad1 e1 = genRing cw2 ch2 fw2 ad2 e2 :=
  rfl

/-- Claim C1 counterexample: the paddle outline's arc fragments are NOT
endpoint-continuous.  The third fragment (the first handle corner round)
begins — at its first emitted sample, just past its start angle `-pi/2` —
more than one inch to the right of where the second fragment (the first
fillet) ended, refuting "each fragment begins, within floating-point
tolerance, at the exact point where the previous fragment ended".  (The
outline is the same for every configured film format: `makePaddleOutline`
takes no per-format parameter.) -/
theorem claim_C1_counterexample :
    1 < (firstPt paddleOutlineFrag3).1 - (lastPt paddleOutlineFrag2).1 := by
  have h2 : (lastPt paddleOutlineFrag2).1
      = fillet_dist * Real.cos handle_theta0 + x_center := by
    unfold paddleOutlineFrag2
    rw [drawArc_lastPt]
    unfold arcPoint fillet_centerA
    have h : (0.5:ℝ) * Real.pi = Real.pi / 2 := by ring
    rw [h, Real.cos_pi_div_two]
    ring
  have h2b : (lastPt paddleOutlineFrag2).1 ≤ 7.1875 := by
    rw [h2]
    have hc : Real.cos handle_theta0 ≤ 1 := Real.cos_le_one _
    have hd : fillet_dist = 3.9375 := by
      unfold fillet_dist handle_fillet large_rad large_diam
      norm_num
    have hx : x_center = 3.25 := by
      unfold x_center img_height
      norm_num
    rw [hd, hx]
    nlinarith
  set d : ℝ := arcDtheta (-0.5 * Real.pi) 0 with hdd
  have h3 : (firstPt paddleOutlineFrag3).1
      = handle_end - handle_rad + Real.sin d * handle_rad := by
    unfold paddleOutlineFrag3
    rw [drawArc_firstPt_false]
    unfold arcPoint
    have hang : -0.5 * Real.pi + d = -(Real.pi / 2 - d) := by ring
    rw [← hdd, hang, Real.cos_neg, Real.cos_pi_div_two_sub]
  have hd0 : 0 ≤ Real.sin d := by
    apply Real.sin_nonneg_of_nonneg_of_le_pi
    · rw [hdd]
      unfold arcDtheta
      apply div_nonneg
      · have h : (0:ℝ) - -0.5 * Real.pi = 0.5 * Real.pi := by ring
        rw [h]
        positivity
      · exact Nat.cast_nonneg _
    · have h := arcDtheta_abs_le (-0.5 * Real.pi) 0
      have hpi := Real.pi_pos
      calc d ≤ |d| := le_abs_self _
        _ ≤ Real.pi / 360 := h
        _ ≤ Real.pi := by linarith
  have h3b : (8.3625:ℝ) ≤ (firstPt paddleOutlineFrag3).1 := by
    rw [h3]
    have hhe : handle_end = 8.5125 := by
      unfold handle_end handle_length x_center img_height large_diam
      norm_num
    have hhr : handle_rad = 0.150 := by
      unfold handle_rad
      norm_num
    rw [hhe, hhr]
    nlinarith
  linarith

/-- Claim C1 amended (proved): the paddle outline is a single connected
path rather than a chain of endpoint-matched arcs: it contains exactly one
pen-up move, at the start of the large-circle arc, and every later fragment
continues with pen-down line segments from wherever the pen is, so the gaps
between consecutive arc endpoints are bridged by straight segments (the
handle's edges, plus an unintended ~0.05-inch bridge at the first fillet,
whose start angle is the literal `1.5 + handle_theta1` instead of
`pi/2 + handle_theta1`); the mirror fillet ends exactly at the large-circle
arc's start point, so the caller's `z` closes the outline without a gap. -/
theorem claim_C1_amended :
    (makePaddleOutline.filter PathCmd.isMove).length = 1
    ∧ firstPt makePaddleOutline
        = arcPoint (x_center, y_center) (large_diam / 2) handle_theta0
    ∧ lastPt makePaddleOutline = firstPt makePaddleOutline := by
  have hfirst : firstPt makePaddleOutline
      = arcPoint (x_center, y_center) (large_diam / 2) handle_theta0 := by
    unfold makePaddleOutline
    rw [firstPt_append, firstPt_append, firstPt_append, firstPt_append]
    · unfold paddleOutlineFrag1
      exact drawArc_firstPt _ _ _ _
    · unfold paddleOutlineFrag1
      exact drawArc_ne_nil _ _ _ _ _
    · exact List.append_ne_nil_of_left_ne_nil
        (by unfold paddleOutlineFrag1; exact drawArc_ne_nil _ _ _ _ _) _
    · exact List.append_ne_nil_of_left_ne_nil
        (List.append_ne_nil_of_left_ne_nil
          (by unfold paddleOutlineFrag1; exact drawArc_ne_nil _ _ _ _ _) _) _
    · exact List.append_ne_nil_of_left_ne_nil
        (List.append_ne_nil_of_left_ne_nil
          (List.append_ne_nil_of_left_ne_nil
            (by unfold paddleOutlineFrag1; exact drawArc_ne_nil _ _ _ _ _) _)
          _) _
  refine ⟨?_, hfirst, ?_⟩
  · unfold makePaddleOutline
    rw [List.filter_append, List.filter_append, List.filter_append,
      List.filter_append]
    unfold paddleOutlineFrag1 paddleOutlineFrag2 paddleOutlineFrag3
      paddleOutlineFrag4 paddleOutlineFrag5
    rw [drawArc_filter_isMove, drawArc_filter_isMove, drawArc_filter_isMove,
      drawArc_filter_isMove, drawArc_filter_isMove]
    simp
  · rw [hfirst]
    unfold makePaddleOutline
    rw [lastPt_append _ _
      (by unfold paddleOutlineFrag5; exact drawArc_ne_nil _ _ _ _ _)]
    unfold paddleOutlineFrag5
    rw [drawArc_lastPt]
    have hang : 1.5 * Real.pi - handle_theta1 = Real.pi + handle_theta0 := by
      unfold handle_theta1
      ring
    have hcos : Real.cos (Real.pi + handle_theta0)
        = -Real.cos handle_theta0 := by
      rw [Real.cos_add, Real.cos_pi, Real.sin_pi]
      ring
    have hsin : Real.sin (Real.pi + handle_theta0)
        = -Real.sin handle_theta0 := by
      rw [Real.sin_add, Real.cos_pi, Real.sin_pi]
      ring
    unfold arcPoint fillet_centerB fillet_dist large_rad
    rw [hang, hcos, hsin]
    exact Prod.ext (by ring) (by ring)

/-- Claim C2 counterexample: at the 35mm format (`cut_width = 1.425`,
`cut_height = 0.945`, `aligner_diam = 0.5`), each aligner center sits at
vertical distance `0.4625 = cut_width/2 - aligner_rad` from the format
center — not "half the cutout height plus one pin radius", whichever of the
two cutout dimensions is read as its height (`0.945/2 + 0.25 = 0.7225` or
`1.425/2 + 0.25 = 0.9625`): the code subtracts the pin radius instead of
adding it. -/
theorem claim_C2_counterexample :
    (makeAlignersCircles 1.425 0.945 1.388 0.5 1).map (fun c => c.center.2)
      = [y_center - 0.4625, y_center - 0.4625,
         y_center + 0.4625, y_center + 0.4625]
    ∧ (0.4625:ℝ) ≠ 0.945 / 2 + 0.5 / 2
    ∧ (0.4625:ℝ) ≠ 1.425 / 2 + 0.5 / 2 := by
  refine ⟨?_, by norm_num, by norm_num⟩
  unfold makeAlignersCircles
  norm_num
  exact ⟨by ring, by ring⟩

/-- Claim C2 amended (proved): each of the four aligner pin circles emitted
by `makeAligners` has its center offset from the format center horizontally
by half the film width PLUS one pin radius (just outside the film strip, as
claimed) but vertically by half the cutout's vertical dimension
(`cut_width`) MINUS one pin radius, i.e. inset inside the cutout's top and
bottom edges rather than outside them. -/
theorem claim_C2_amended (cut_width cut_height film_width aligner_diam
    scale : ℝ) :
    makeAligners cut_width cut_height film_width aligner_diam scale
      = ((makeAlignersCircles cut_width cut_height film_width aligner_diam
            scale).map
          (fun c => drawArc c.center c.radius 0 (2 * Real.pi) true)).flatten
    ∧ (makeAlignersCircles cut_width cut_height film_width aligner_diam
          scale).map Circle.center
      = [(x_center - (film_width / 2 + aligner_diam / 2),
          y_center - (cut_width / 2 - aligner_diam / 2)),
         (x_center + (film_width / 2 + aligner_diam / 2),
          y_center - (cut_width / 2 - aligner_diam / 2)),
         (x_center - (film_width / 2 + aligner_diam / 2),
          y_center + (cut_width / 2 - aligner_diam / 2)),
         (x_center + (film_width / 2 + aligner_diam / 2),
          y_center + (cut_width / 2 - aligner_diam / 2))] := by
  refine ⟨makeAligners_eq_circles _ _ _ _ _, ?_⟩
  unfold makeAlignersCircles
  simp [Prod.ext_iff]
  refine ⟨⟨by ring, by ring⟩, ⟨by ring, by ring⟩, ⟨by ring, by ring⟩,
    by ring, by ring⟩

/-- Claim C3 counterexample: at the invalid input radius `0` with the
degenerate angle range `theta0 = theta1 = 0`, `drawArc` raises no error and
produces a concrete degenerate path — a move and a line both at the center
point — rather than failing fast with a validation error (the source
contains no validation code at all). -/
theorem claim_C3_counterexample :
    drawArc ((0:ℝ), (0:ℝ)) 0 0 0 true
      = [PathCmd.move ((0:ℝ), (0:ℝ)), PathCmd.line ((0:ℝ), (0:ℝ))] := by
  have hn : arcNumSegments 0 0 = 1 := by
    unfold arcNumSegments
    norm_num
  have hr : List.range 1 = [0] := rfl
  unfold drawArc
  rw [hn, hr]
  unfold arcPoint
  norm_num [Prod.ext_iff]

/-- Claim C3 amended (proved): generation performs no input validation and
never fails: for every input — zero or negative radius, any dimensions, a
degenerate angle range — `drawArc` totally produces a polyline of
`(if moveTo then 1 else 0) + num_segments` commands with `num_segments ≥ 1`,
every sample lying at squared distance exactly `rad^2` from the center (so
a zero radius silently collapses the path onto the center point, and the
model's exact arithmetic produces no NaN); `makeAligners` likewise always
emits its four full circles. -/
theorem claim_C3_amended (center : Point) (rad theta0 theta1 : ℝ)
    (moveTo : Bool) :
    (drawArc center rad theta0 theta1 moveTo).length
        = (if moveTo then 1 else 0) + arcNumSegments theta0 theta1
    ∧ 1 ≤ arcNumSegments theta0 theta1
    ∧ (drawArc center rad theta0 theta1 moveTo).map
        (fun k => ((cmdPoint k).1 - center.1) ^ 2
          + ((cmdPoint k).2 - center.2) ^ 2)
      = List.replicate ((drawArc center rad theta0 theta1 moveTo).length)
          (rad ^ 2)
    ∧ (makeAligners rad rad rad rad rad).length
        = 4 * (1 + arcNumSegments 0 (2 * Real.pi)) := by
  have hpt : ∀ θ : ℝ, ((arcPoint center rad θ).1 - center.1) ^ 2
      + ((arcPoint center rad θ).2 - center.2) ^ 2 = rad ^ 2 := by
    intro θ
    unfold arcPoint
    dsimp only
    linear_combination rad ^ 2 * Real.sin_sq_add_cos_sq θ
  refine ⟨drawArc_length _ _ _ _ _, arcNumSegments_pos _ _, ?_, ?_⟩
  · have hmem : ∀ b ∈ (drawArc center rad theta0 theta1 moveTo).map
        (fun k => ((cmdPoint k).1 - center.1) ^ 2
          + ((cmdPoint k).2 - center.2) ^ 2), b = rad ^ 2 := by
      intro b hb
      rw [List.mem_map] at hb
      obtain ⟨k, hk, rfl⟩ := hb
      unfold drawArc at hk
      rw [List.mem_append] at hk
      rcases hk with hk | hk
      · cases moveTo
        · simp at hk
        · simp at hk
          subst hk
          exact hpt theta0
      · rw [List.mem_map] at hk
        obtain ⟨i, hi, rfl⟩ := hk
        exact hpt _
    have h := List.eq_replicate_of_mem hmem
    rw [h, List.length_map]
  · unfold makeAligners
    rw [List.length_append, List.length_append, List.length_append,
      drawArc_length, drawArc_length, drawArc_length, drawArc_length]
    simp
    ring

end

end GenCarrier
